import Mathlib

set_option maxRecDepth 100000

/-!
# Verification of the `nyx` TOTP crate (RFC 6238 over HMAC-SHA1)

Shallow embedding of `src/lib.rs`. Machine integers (`u8`, `u32`, `u64`)
are modelled as `Nat` with explicit `% 2^w` wherever the Rust code can
wrap (release-profile two's-complement wrapping semantics); operations
that panic in Rust regardless of profile (division/remainder by zero)
are modelled with `Option`, returning `none` on the panicking paths.

Byte strings (`&[u8]`) are `List Nat` with each element below 256.
-/

namespace Nyx

/-- Rotate a 32-bit word `w < 2^32` left by `n` bits. -/
def rotl (n w : Nat) : Nat :=
  ((w <<< n) ||| (w >>> (32 - n))) % 2 ^ 32

/-- Big-endian byte encoding of `n` into `k` bytes (as in
`u64::to_be_bytes` / `byteorder::BigEndian` for the matching width). -/
def toBytesBE : Nat → Nat → List Nat
  | 0, _ => []
  | k + 1, n => ((n >>> (8 * k)) &&& 255) :: toBytesBE k n

/-- Interpret a byte list as a list of big-endian 32-bit words
(4 bytes per word), as SHA-1 block parsing does. -/
def bytesToWords : List Nat → List Nat
  | b0 :: b1 :: b2 :: b3 :: rest =>
    ((b0 <<< 24) ||| (b1 <<< 16) ||| (b2 <<< 8) ||| b3) :: bytesToWords rest
  | _ => []

/-- SHA-1 round constant for round `t` (RFC 3174 §5). -/
def sha1K (t : Nat) : Nat :=
  if t < 20 then 0x5A827999
  else if t < 40 then 0x6ED9EBA1
  else if t < 60 then 0x8F1BBCDC
  else 0xCA62C1D6

/-- SHA-1 round function for round `t` (RFC 3174 §5). -/
def sha1F (t b c d : Nat) : Nat :=
  if t < 20 then (b &&& c) ||| ((b ^^^ 0xFFFFFFFF) &&& d)
  else if t < 40 then b ^^^ c ^^^ d
  else if t < 60 then (b &&& c) ||| (b &&& d) ||| (c &&& d)
  else b ^^^ c ^^^ d

/-- SHA-1 working state: five 32-bit words. -/
structure Sha1State where
  a : Nat
  b : Nat
  c : Nat
  d : Nat
  e : Nat

/-- Message-schedule extension (RFC 3174 §6.1 step b). The word list is
kept most-recent-first, so `W[t-3]`, `W[t-8]`, `W[t-14]`, `W[t-16]` are
at positions 2, 7, 13, 15; `n` more words are appended. -/
def sha1Extend (ws : List Nat) : Nat → List Nat
  | 0 => ws
  | n + 1 =>
    sha1Extend
      (rotl 1 ((ws.getD 2 0) ^^^ (ws.getD 7 0) ^^^ (ws.getD 13 0) ^^^ (ws.getD 15 0)) :: ws) n

/-- The 80 SHA-1 rounds over the schedule words `ws` (RFC 3174 §6.1 step d). -/
def sha1Rounds : Nat → List Nat → Sha1State → Sha1State
  | _, [], st => st
  | t, w :: ws, st =>
    sha1Rounds (t + 1) ws
      ⟨(rotl 5 st.a + sha1F t st.b st.c st.d + st.e + sha1K t + w) % 2 ^ 32,
       st.a, rotl 30 st.b, st.c, st.d⟩

/-- Compress one 512-bit block (given as 16 words) into the chaining state. -/
def sha1Block (st : Sha1State) (block : List Nat) : Sha1State :=
  let sched := (sha1Extend block.reverse 64).reverse
  let f := sha1Rounds 0 sched st
  ⟨(st.a + f.a) % 2 ^ 32, (st.b + f.b) % 2 ^ 32, (st.c + f.c) % 2 ^ 32,
   (st.d + f.d) % 2 ^ 32, (st.e + f.e) % 2 ^ 32⟩

/-- Fold `n` 16-word blocks of `ws` into the state. -/
def sha1Blocks : Nat → Sha1State → List Nat → Sha1State
  | 0, st, _ => st
  | n + 1, st, ws => sha1Blocks n (sha1Block st (ws.take 16)) (ws.drop 16)

/-- RFC 3174 padding: append `0x80`, zero bytes up to 56 mod 64, then the
64-bit big-endian bit length. -/
def sha1Pad (msg : List Nat) : List Nat :=
  msg ++ 0x80 :: (List.replicate ((119 - msg.length % 64) % 64) 0 ++ toBytesBE 8 (8 * msg.length))

/-- Modelled from the spec: the Signer's underlying hash, SHA-1 per
RFC 3174 (the `sha1` crate is an external dependency, not in `src/`).
Maps a byte string to its 20-byte digest. -/
def sha1 (msg : List Nat) : List Nat :=
  let ws := bytesToWords (sha1Pad msg)
  let st := sha1Blocks (ws.length / 16) ⟨0x67452301, 0xEFCDAB89, 0x98BADCFE, 0x10325476, 0xC3D2E1F0⟩ ws
  toBytesBE 4 st.a ++ toBytesBE 4 st.b ++ toBytesBE 4 st.c ++ toBytesBE 4 st.d ++ toBytesBE 4 st.e

/-- HMAC block-sized key: keys longer than 64 bytes are hashed first,
then the key is zero-padded to 64 bytes (RFC 2104). -/
def hmacKey (key : List Nat) : List Nat :=
  let k := if 64 < key.length then sha1 key else key
  k ++ List.replicate (64 - k.length) 0

/-- Modelled from the spec: the Signer, HMAC-SHA1 per RFC 2104 (the
`hmac` crate is an external dependency, not in `src/`). Maps
(key bytes, message bytes) to a 20-byte digest. -/
def hmacSha1 (key msg : List Nat) : List Nat :=
  let k := hmacKey key
  sha1 ((k.map (fun b => b ^^^ 0x5C)) ++ sha1 ((k.map (fun b => b ^^^ 0x36)) ++ msg))

/-- The TOTP token generator (`struct Totp` in `src/lib.rs`): `digits : u32`,
`skew : u8`, `step : u64`, modelled as `Nat`s. -/
structure Totp where
  digits : Nat
  skew : Nat
  step : Nat
  deriving DecidableEq, Repr

/-- `Totp::options`: constructs the struct from the provided options,
with no validation of any field. -/
def Totp.options (digits skew step : Nat) : Totp :=
  { digits := digits, skew := skew, step := step }

/-- `Totp::new`: default values — 6 digits, skew 1, step 30. -/
def Totp.new : Totp :=
  Totp.options 6 1 30

/-- `Totp::sign`: HMAC-SHA1 of the time-step counter `time / step`
encoded as 8 big-endian bytes (`u64::to_be_bytes`). The `u64` division
panics when `step = 0`; that path is guarded in `generate?`/`verify?`
below, so `sign` is only ever used with `step ≠ 0`. -/
def Totp.sign (c : Totp) (key : List Nat) (time : Nat) : List Nat :=
  hmacSha1 key (toBytesBE 8 (time / c.step))

/-- Big-endian `u32` read of 4 bytes of `hash` starting at `offset`
(`byteorder::BigEndian::read_u32`). In-bounds access is proved
separately (the digest has 20 bytes and `offset ≤ 15`). -/
def readBE32 (hash : List Nat) (offset : Nat) : Nat :=
  (hash.getD offset 0 <<< 24) ||| (hash.getD (offset + 1) 0 <<< 16) |||
  (hash.getD (offset + 2) 0 <<< 8) ||| hash.getD (offset + 3) 0

/-- The unguarded body of `Totp::generate`: dynamic truncation of the
signature. `(10 as u32).pow(self.digits)` wraps modulo `2^32` in release
profile, hence the `% 2^32` on the modulus. -/
def Totp.rawGenerate (c : Totp) (key : List Nat) (time : Nat) : Nat :=
  let hash := c.sign key time
  let offset := hash.getD 19 0 &&& 15
  (readBE32 hash offset &&& 0x7FFFFFFF) % (10 ^ c.digits % 2 ^ 32)

/-- `Totp::generate`. `none` models the panicking paths: `step = 0`
(division by zero in `sign`) and `10 ^ digits % 2^32 = 0` (remainder by
zero after the wrapped power, i.e. `digits ≥ 32`). -/
def Totp.generate? (c : Totp) (key : List Nat) (time : Nat) : Option Nat :=
  if c.step = 0 ∨ 10 ^ c.digits % 2 ^ 32 = 0 then none
  else some (c.rawGenerate key time)

/-- The window-start value `time / step - skew` computed by
`Totp::verify` in wrapping `u64` arithmetic (`skew` is a `u8`, so
`skew < 2^64` always holds in the source). -/
def Totp.verifyOffset (c : Totp) (time : Nat) : Nat :=
  (time / c.step + (2 ^ 64 - c.skew)) % 2 ^ 64

/-- The probe timestamp `(offset + i) * step` of `Totp::verify`, in
wrapping `u64` arithmetic. -/
def Totp.stepTime (c : Totp) (offset i : Nat) : Nat :=
  ((offset + i) % 2 ^ 64 * c.step) % 2 ^ 64

/-- The `for` loop of `Totp::verify`: `n` remaining iterations starting
at index `i`; returns `true` at the first probe whose generated code
equals `token`, else `false`. -/
def Totp.verifyLoop (c : Totp) (key : List Nat) (token offset : Nat) : Nat → Nat → Bool
  | _, 0 => false
  | i, n + 1 =>
    if c.rawGenerate key (c.stepTime offset i) = token then true
    else c.verifyLoop key token offset (i + 1) n

/-- `Totp::verify`. The loop bound `self.skew * 2 + 1` is computed in
`u8` arithmetic, so it wraps modulo 256 (`skew * 2 % 256` cannot be 255,
so the `+ 1` never wraps a second time). `none` models the same
panicking paths as `generate?` — `time / self.step` panics when
`step = 0`, and each iteration calls `generate`, whose remainder panics
when `10 ^ digits % 2^32 = 0` (the loop always runs at least once). -/
def Totp.verify? (c : Totp) (key : List Nat) (time token : Nat) : Option Bool :=
  if c.step = 0 ∨ 10 ^ c.digits % 2 ^ 32 = 0 then none
  else some (c.verifyLoop key token (c.verifyOffset time) 0 (c.skew * 2 % 256 + 1))

/-- `nyx::generate`: convenience function using the default config. -/
def generate? (key : List Nat) (time : Nat) : Option Nat :=
  Totp.new.generate? key time

/-- `nyx::verify`: convenience function using the default config. -/
def verify? (key : List Nat) (time token : Nat) : Option Bool :=
  Totp.new.verify? key time token

/-- The RFC 6238 test key `b"12345678901234567890"` used by the crate's
doc examples and tests. -/
def testKey : List Nat :=
  [49, 50, 51, 52, 53, 54, 55, 56, 57, 48, 49, 50, 51, 52, 53, 54, 55, 56, 57, 48]

/-! ## Spec-side definitions

Refinement targets written from the spec's words, to be compared with
the embedded source functions above. -/

/-- Written from the spec (refinement target): `generate` by the RFC 4226
steps as the spec states them — `counter = floor(timestamp / step)`
encoded as 8 big-endian bytes, `digest = HMAC-SHA1(key, counter)`,
`offset` = low nibble of digest byte 19, the 4 bytes
`digest[offset..offset+4]` read big-endian, masked with `0x7FFFFFFF`,
reduced modulo `10^digits` (exact power, no wrapping). -/
def specGenerate (c : Totp) (key : List Nat) (time : Nat) : Nat :=
  let counter := time / c.step
  let digest := hmacSha1 key (toBytesBE 8 counter)
  let offset := digest.getD 19 0 &&& 0x0F
  let slice := readBE32 digest offset
  (slice &&& 0x7FFFFFFF) % 10 ^ c.digits

/-- Written from the spec (refinement target): the verifier loop as the
spec states it — iterate `i` from `0` to `2*skew` inclusive, probe
timestamp `(offsetCounter + i) * step` (exact arithmetic), return `true`
at the first probe whose generated code equals the candidate, `false`
after exhausting the window. -/
def specVerifyLoop (c : Totp) (key : List Nat) (token offsetCounter : Nat) : Nat → Nat → Bool
  | _, 0 => false
  | i, n + 1 =>
    if specGenerate c key ((offsetCounter + i) * c.step) = token then true
    else specVerifyLoop c key token offsetCounter (i + 1) n

/-- Written from the spec (refinement target): `verify` with
`offsetCounter = floor(timestamp/step) - skew` and `2*skew + 1` probes. -/
def specVerify (c : Totp) (key : List Nat) (time token : Nat) : Bool :=
  specVerifyLoop c key token (time / c.step - c.skew) 0 (2 * c.skew + 1)

/-! ## Helper lemmas -/

theorem toBytesBE_length (k n : Nat) : (toBytesBE k n).length = k := by
  induction k generalizing n with
  | zero => rfl
  | succ k ih => simp [toBytesBE, ih]

theorem sha1_length (msg : List Nat) : (sha1 msg).length = 20 := by
  simp [sha1, toBytesBE_length]

theorem hmacSha1_length (key msg : List Nat) : (hmacSha1 key msg).length = 20 := by
  simp [hmacSha1, sha1_length]

theorem sign_length (c : Totp) (key : List Nat) (time : Nat) :
    (c.sign key time).length = 20 := by
  simp [Totp.sign, hmacSha1_length]

/-- For a valid digit count, the wrapped `u32` power equals the exact power. -/
theorem pow_mod_eq (d : Nat) (h : d ≤ 9) : 10 ^ d % 4294967296 = 10 ^ d := by
  apply Nat.mod_eq_of_lt
  calc 10 ^ d ≤ 10 ^ 9 := Nat.pow_le_pow_right (by norm_num) h
    _ < 4294967296 := by norm_num

/-- The source and spec generators agree for `digits ≤ 9`. -/
theorem rawGenerate_eq_spec (c : Totp) (key : List Nat) (time : Nat) (h : c.digits ≤ 9) :
    c.rawGenerate key time = specGenerate c key time := by
  simp [Totp.rawGenerate, specGenerate, Totp.sign, pow_mod_eq c.digits h]

/-- The source generator depends on `time` only through the counter `time / step`. -/
theorem rawGenerate_counter (c : Totp) (key : List Nat) (t₁ t₂ : Nat)
    (h : t₁ / c.step = t₂ / c.step) :
    c.rawGenerate key t₁ = c.rawGenerate key t₂ := by
  simp [Totp.rawGenerate, Totp.sign, h]

theorem generate?_eq_some (c : Totp) (key : List Nat) (time : Nat)
    (hd : 1 ≤ c.digits) (hd9 : c.digits ≤ 9) (hs : 0 < c.step) :
    c.generate? key time = some (c.rawGenerate key time) := by
  have hm : 10 ^ c.digits % 4294967296 = 10 ^ c.digits := pow_mod_eq c.digits hd9
  have hmpos : 10 ^ c.digits ≠ 0 := (Nat.pos_pow_of_pos c.digits (by norm_num)).ne'
  simp [Totp.generate?, hs.ne', hm, hmpos]

/-- If some probe in range matches, the verifier loop returns `true`. -/
theorem verifyLoop_true (c : Totp) (key : List Nat) (token offset : Nat) :
    ∀ n i j, j < n → c.rawGenerate key (c.stepTime offset (i + j)) = token →
      c.verifyLoop key token offset i n = true := by
  intro n
  induction n with
  | zero => intro i j hj _; exact absurd hj (Nat.not_lt_zero j)
  | succ n ih =>
    intro i j hj hgen
    by_cases h : c.rawGenerate key (c.stepTime offset i) = token
    · simp [Totp.verifyLoop, h]
    · simp only [Totp.verifyLoop, h, if_false]
      cases j with
      | zero => rw [Nat.add_zero] at hgen; exact absurd hgen h
      | succ j =>
        apply ih (i + 1) j (by omega)
        rwa [show i + 1 + j = i + (j + 1) by omega]

/-- When every probe of the source loop agrees with the corresponding
probe of the spec loop, the two loops agree. -/
theorem verifyLoop_eq_specLoop (c : Totp) (key : List Nat) (token offset so : Nat) :
    ∀ n i,
      (∀ j, j < n → c.rawGenerate key (c.stepTime offset (i + j)) =
        specGenerate c key ((so + (i + j)) * c.step)) →
      c.verifyLoop key token offset i n = specVerifyLoop c key token so i n := by
  intro n
  induction n with
  | zero => intro i _; rfl
  | succ n ih =>
    intro i h
    have h0 := h 0 (Nat.succ_pos n)
    rw [Nat.add_zero] at h0
    simp only [Totp.verifyLoop, specVerifyLoop, h0]
    by_cases hc : specGenerate c key ((so + i) * c.step) = token
    · simp [hc]
    · simp only [hc, if_false]
      apply ih (i + 1)
      intro j hj
      have := h (j + 1) (by omega)
      rwa [show i + (j + 1) = i + 1 + j by omega] at this

/-- Adding back the skew to the verifier's wrapped window start recovers
the current counter. -/
theorem verifyOffset_add_skew (c : Totp) (time : Nat)
    (hc : time / c.step < 2 ^ 64) (hsk : c.skew ≤ 2 ^ 64) :
    (c.verifyOffset time + c.skew) % 2 ^ 64 = time / c.step := by
  unfold Totp.verifyOffset
  rw [Nat.mod_add_mod, Nat.add_assoc, Nat.sub_add_cancel hsk, Nat.add_mod_right]
  exact Nat.mod_eq_of_lt hc

/-- Division by `b` of a value decomposed as `b * q + r` with `r < b`. -/
theorem div_eq_of_decomp {b q r a : Nat} (hb : 0 < b) (h : a = b * q + r) (hr : r < b) :
    a / b = q := by
  subst h
  rw [Nat.mul_add_div hb, Nat.div_eq_of_lt hr, Nat.add_zero]

/-- When the window start does not underflow, the verifier's wrapped
window-start value is the exact difference. -/
theorem verifyOffset_eq_sub (c : Totp) (t : Nat)
    (h1 : c.skew ≤ t / c.step) (h2 : t / c.step < 2 ^ 64) (h3 : c.skew ≤ 2 ^ 64) :
    c.verifyOffset t = t / c.step - c.skew := by
  unfold Totp.verifyOffset
  have h64 : (2 : Nat) ^ 64 = 18446744073709551616 := by norm_num
  rw [show t / c.step + (2 ^ 64 - c.skew) = t / c.step - c.skew + 2 ^ 64 by omega,
    Nat.add_mod_right]
  exact Nat.mod_eq_of_lt (by omega)

/-- A probe whose arithmetic does not wrap lands on counter `off + i`. -/
theorem stepTime_counter (c : Totp) (off i : Nat) (hs : 0 < c.step)
    (hoi : off + i < 2 ^ 64) (h : (off + i) * c.step < 2 ^ 64) :
    c.stepTime off i / c.step = off + i := by
  unfold Totp.stepTime
  rw [Nat.mod_eq_of_lt hoi, Nat.mod_eq_of_lt h, Nat.mul_div_cancel _ hs]

/-- If probe `j` of the window matches the token, `verify` returns `some true`. -/
theorem verify?_true_of_probe (c : Totp) (key : List Nat) (time token j : Nat)
    (hd9 : c.digits ≤ 9) (hs : 0 < c.step) (hj : j < c.skew * 2 % 256 + 1)
    (hgen : c.rawGenerate key (c.stepTime (c.verifyOffset time) j) = token) :
    c.verify? key time token = some true := by
  have hm := pow_mod_eq c.digits hd9
  have hmne : 10 ^ c.digits ≠ 0 := (Nat.pos_pow_of_pos c.digits (by norm_num)).ne'
  have hloop : c.verifyLoop key token (c.verifyOffset time) 0 (c.skew * 2 % 256 + 1) = true := by
    apply verifyLoop_true c key token (c.verifyOffset time) _ 0 j hj
    rwa [Nat.zero_add]
  simp [Totp.verify?, hs.ne', hm, hmne, hloop]

/-! ## Claim theorems -/

/-- C8 (confirmed): for every key, timestamp and configuration, the
4-byte dynamic-truncation window `digest[offset..offset+4]` is fully
contained in the 20-byte HMAC-SHA1 digest, because
`offset = digest[19] & 0x0F ≤ 15`; the out-of-bounds branch of the
slice is unreachable. -/
theorem nyx_c8 (c : Totp) (key : List Nat) (time : Nat) :
    (c.sign key time).length = 20 ∧
      ((c.sign key time).getD 19 0 &&& 15) + 4 ≤ (c.sign key time).length := by
  refine ⟨sign_length c key time, ?_⟩
  rw [sign_length]
  have h : (c.sign key time).getD 19 0 &&& 15 ≤ 15 := Nat.and_le_right
  omega

/-- C2 (confirmed): for every key, timestamp and configuration with
`1 ≤ digits ≤ 9` and `step > 0`, the generated code lies in
`[0, 10^digits)`. -/
theorem nyx_c2 (c : Totp) (key : List Nat) (time v : Nat)
    (hd : 1 ≤ c.digits) (hd9 : c.digits ≤ 9) (hs : 0 < c.step)
    (hg : c.generate? key time = some v) : v < 10 ^ c.digits := by
  rw [generate?_eq_some c key time hd hd9 hs] at hg
  obtain rfl : c.rawGenerate key time = v := Option.some.inj hg
  have hm : 10 ^ c.digits % 2 ^ 32 = 10 ^ c.digits := by
    rw [show (2 : Nat) ^ 32 = 4294967296 from by norm_num]
    exact pow_mod_eq c.digits hd9
  simp only [Totp.rawGenerate, hm]
  exact Nat.mod_lt _ (Nat.pos_pow_of_pos c.digits (by norm_num))

/-- C3 (confirmed): for every key, timestamp and valid configuration,
`generate` computes its result exactly by the RFC 4226 steps stated in
the spec (counter = `⌊time/step⌋` as 8 big-endian bytes, HMAC-SHA1,
offset = low nibble of digest byte 19, big-endian 32-bit window,
mask `0x7FFFFFFF`, modulo `10^digits`). -/
theorem nyx_c3 (c : Totp) (key : List Nat) (time : Nat)
    (hd : 1 ≤ c.digits) (hd9 : c.digits ≤ 9) (hs : 0 < c.step) :
    c.generate? key time = some (specGenerate c key time) := by
  rw [generate?_eq_some c key time hd hd9 hs, rawGenerate_eq_spec c key time hd9]

/-- C10 (confirmed): `generate` depends on the timestamp only through
the time-step counter — timestamps with equal `⌊time/step⌋` generate
equal codes. -/
theorem nyx_c10 (c : Totp) (key : List Nat) (t₁ t₂ : Nat)
    (hs : 0 < c.step) (hd : 1 ≤ c.digits) (hd9 : c.digits ≤ 9)
    (h : t₁ / c.step = t₂ / c.step) :
    c.generate? key t₁ = c.generate? key t₂ := by
  unfold Totp.generate?
  rw [rawGenerate_counter c key t₁ t₂ h]

/-- C1 (corrected, amended): self-verification holds for every key,
every `u64` timestamp and every configuration with `1 ≤ digits ≤ 9`,
`step > 0` and additionally `skew ≤ 127` (so that the `u8` loop bound
`skew * 2 + 1` does not wrap): `verify(key, time, generate(key, time))`
returns `true`. -/
theorem nyx_c1 (c : Totp) (key : List Nat) (time v : Nat)
    (hd : 1 ≤ c.digits) (hd9 : c.digits ≤ 9) (hs : 0 < c.step)
    (hsk : c.skew ≤ 127) (ht : time < 2 ^ 64)
    (hg : c.generate? key time = some v) :
    c.verify? key time v = some true := by
  have hraw : c.rawGenerate key time = v := by
    rw [generate?_eq_some c key time hd hd9 hs] at hg
    exact Option.some.inj hg
  have hm : 10 ^ c.digits % 4294967296 = 10 ^ c.digits := pow_mod_eq c.digits hd9
  have hmne : 10 ^ c.digits ≠ 0 := (Nat.pos_pow_of_pos c.digits (by norm_num)).ne'
  have hdiv : time / c.step < 2 ^ 64 := Nat.lt_of_le_of_lt (Nat.div_le_self time c.step) ht
  have hloop : c.verifyLoop key v (c.verifyOffset time) 0 (c.skew * 2 % 256 + 1) = true := by
    apply verifyLoop_true c key v (c.verifyOffset time) _ 0 c.skew
    · have : c.skew * 2 % 256 = c.skew * 2 := Nat.mod_eq_of_lt (by omega)
      omega
    · rw [Nat.zero_add]
      unfold Totp.stepTime
      rw [verifyOffset_add_skew c time hdiv (by omega)]
      have hmul : time / c.step * c.step < 2 ^ 64 :=
        Nat.lt_of_le_of_lt (Nat.div_mul_le_self time c.step) ht
      rw [Nat.mod_eq_of_lt hmul]
      rw [rawGenerate_counter c key (time / c.step * c.step) time
        (by rw [Nat.mul_div_cancel _ hs])]
      exact hraw
  simp [Totp.verify?, hs.ne', hm, hmne, hloop]

/-- C4 (corrected, amended): for every key, candidate code, `u64`
timestamp and configuration with `1 ≤ digits ≤ 9`, `step > 0`, and
additionally `skew ≤ 127` (no `u8` wrap of the loop bound),
`skew ≤ ⌊time/step⌋` (no window-start underflow) and
`(⌊time/step⌋ + skew) * step < 2^64` (no probe-timestamp overflow),
`verify` behaves exactly as the spec describes: it probes the `2*skew+1`
timestamps `(⌊time/step⌋ - skew + i) * step` for `i = 0, …, 2*skew` in
increasing order, returning `true` at the first matching probe and
`false` after exhausting the window. -/
theorem nyx_c4 (c : Totp) (key : List Nat) (time token : Nat)
    (hd : 1 ≤ c.digits) (hd9 : c.digits ≤ 9) (hs : 0 < c.step)
    (hsk : c.skew ≤ 127) (hlow : c.skew ≤ time / c.step)
    (hhigh : (time / c.step + c.skew) * c.step < 2 ^ 64) :
    c.verify? key time token = some (specVerify c key time token) := by
  have hm : 10 ^ c.digits % 4294967296 = 10 ^ c.digits := pow_mod_eq c.digits hd9
  have hmne : 10 ^ c.digits ≠ 0 := (Nat.pos_pow_of_pos c.digits (by norm_num)).ne'
  have hcsum : time / c.step + c.skew < 2 ^ 64 := by
    calc time / c.step + c.skew ≤ (time / c.step + c.skew) * c.step :=
          Nat.le_mul_of_pos_right _ hs
      _ < 2 ^ 64 := hhigh
  have hoff : c.verifyOffset time = time / c.step - c.skew := by
    unfold Totp.verifyOffset
    have h64 : (2 : Nat) ^ 64 = 18446744073709551616 := by norm_num
    rw [show time / c.step + (2 ^ 64 - c.skew) = time / c.step - c.skew + 2 ^ 64 by omega,
      Nat.add_mod_right]
    exact Nat.mod_eq_of_lt (by omega)
  have hcount : c.skew * 2 % 256 + 1 = 2 * c.skew + 1 := by
    rw [Nat.mod_eq_of_lt (by omega)]; omega
  have hloops : c.verifyLoop key token (c.verifyOffset time) 0 (c.skew * 2 % 256 + 1) =
      specVerifyLoop c key token (time / c.step - c.skew) 0 (2 * c.skew + 1) := by
    rw [hcount, hoff]
    apply verifyLoop_eq_specLoop
    intro j hj
    rw [Nat.zero_add]
    unfold Totp.stepTime
    have hctr : time / c.step - c.skew + j < 2 ^ 64 := by omega
    rw [Nat.mod_eq_of_lt hctr]
    have hprobe : (time / c.step - c.skew + j) * c.step < 2 ^ 64 := by
      calc (time / c.step - c.skew + j) * c.step ≤ (time / c.step + c.skew) * c.step :=
            Nat.mul_le_mul_right _ (by omega)
        _ < 2 ^ 64 := hhigh
    rw [Nat.mod_eq_of_lt hprobe]
    exact rawGenerate_eq_spec c key _ hd9
  simp [Totp.verify?, specVerify, hs.ne', hm, hmne, hloops]

/-- C6 (corrected, amended): when `⌊time/step⌋ < skew`, the verifier's
window-start computation wraps modulo `2^64` (release-profile `u64`
semantics): it equals `⌊time/step⌋ + 2^64 - skew`, a value strictly
beyond the current counter, so the verifier probes wrapped far-future
time steps instead of clamping the window at time zero. -/
theorem nyx_c6 (c : Totp) (key : List Nat) (time : Nat)
    (hs : 0 < c.step) (h256 : c.skew < 256) (hu : time / c.step < c.skew) :
    c.verifyOffset time = time / c.step + (2 ^ 64 - c.skew) ∧
      time / c.step < c.verifyOffset time := by
  have h64 : (2 : Nat) ^ 64 = 18446744073709551616 := by norm_num
  have heq : c.verifyOffset time = time / c.step + (2 ^ 64 - c.skew) := by
    unfold Totp.verifyOffset
    exact Nat.mod_eq_of_lt (by omega)
  exact ⟨heq, by omega⟩

/-- C7 (corrected, amended): with skew 1 and step 30 (and
`1 ≤ digits ≤ 9`, `121 ≤ T`, `T + 121 < 2^64` so every probed time fits
in a `u64`), a code generated at time `T` verifies at `T + 30` and at
`T - 30`; at `T + 61` and `T - 61` the verifier's probed counters never
include `T`'s own counter `⌊T/30⌋` — a match there can only come from a
code collision between distinct counters, not from probing `T`'s step. -/
theorem nyx_c7 (digits : Nat) (key : List Nat) (T : Nat)
    (hd : 1 ≤ digits) (hd9 : digits ≤ 9) (hT : 121 ≤ T) (hT64 : T + 121 < 2 ^ 64) :
    (∀ v, (Totp.options digits 1 30).generate? key T = some v →
      (Totp.options digits 1 30).verify? key (T + 30) v = some true ∧
      (Totp.options digits 1 30).verify? key (T - 30) v = some true) ∧
    (∀ i, i < 3 →
      (Totp.options digits 1 30).stepTime
        ((Totp.options digits 1 30).verifyOffset (T + 61)) i / (Totp.options digits 1 30).step
        ≠ T / 30) ∧
    (∀ i, i < 3 →
      (Totp.options digits 1 30).stepTime
        ((Totp.options digits 1 30).verifyOffset (T - 61)) i / (Totp.options digits 1 30).step
        ≠ T / 30) := by
  have hskew : (Totp.options digits 1 30).skew = 1 := rfl
  have hstep : (Totp.options digits 1 30).step = 30 := rfl
  have hdigits : (Totp.options digits 1 30).digits = digits := rfl
  have h64 : (2 : Nat) ^ 64 = 18446744073709551616 := by norm_num
  obtain ⟨q, r, hqr, hr⟩ : ∃ q r, T = 30 * q + r ∧ r < 30 :=
    ⟨T / 30, T % 30, by omega, Nat.mod_lt T (by norm_num)⟩
  have hTdiv : T / 30 = q := div_eq_of_decomp (by norm_num) hqr hr
  have hq4 : 4 ≤ q := by omega
  have hdiv1 : (T + 30) / 30 = q + 1 := div_eq_of_decomp (by norm_num) (by omega) hr
  have hdiv2 : (T - 30) / 30 = q - 1 := div_eq_of_decomp (by norm_num) (by omega) hr
  obtain ⟨s, r2, hsr, hr2⟩ : ∃ s r2, r + 61 = 30 * s + r2 ∧ r2 < 30 :=
    ⟨(r + 61) / 30, (r + 61) % 30, by omega, Nat.mod_lt _ (by norm_num)⟩
  have hs23 : 2 ≤ s ∧ s ≤ 3 := by omega
  have hdiv3 : (T + 61) / 30 = q + s := div_eq_of_decomp (by norm_num) (by omega) hr2
  obtain ⟨s', r3, hsr', hr3⟩ : ∃ s' r3, r + 29 = 30 * s' + r3 ∧ r3 < 30 :=
    ⟨(r + 29) / 30, (r + 29) % 30, by omega, Nat.mod_lt _ (by norm_num)⟩
  have hs01 : s' ≤ 1 := by omega
  have hdiv4 : (T - 61) / 30 = q - 3 + s' := div_eq_of_decomp (by norm_num) (by omega) hr3
  refine ⟨?_, ?_, ?_⟩
  · intro v hg
    have hraw : (Totp.options digits 1 30).rawGenerate key T = v := by
      rw [generate?_eq_some _ key T (by rw [hdigits]; exact hd) (by rw [hdigits]; exact hd9)
        (by rw [hstep]; norm_num)] at hg
      exact Option.some.inj hg
    constructor
    · apply verify?_true_of_probe _ key (T + 30) v 0 (by rw [hdigits]; exact hd9)
        (by rw [hstep]; norm_num) (by rw [hskew]; norm_num)
      have hoff : (Totp.options digits 1 30).verifyOffset (T + 30) = q := by
        rw [verifyOffset_eq_sub _ _ (by rw [hskew, hstep, hdiv1]; omega)
          (by rw [hstep, hdiv1]; omega) (by rw [hskew]; omega), hskew, hstep, hdiv1]
        omega
      rw [hoff]
      rw [rawGenerate_counter _ key _ T (by
        rw [stepTime_counter _ q 0 (by rw [hstep]; norm_num) (by omega)
          (by rw [hstep]; omega), hstep, hTdiv]
        omega)]
      exact hraw
    · apply verify?_true_of_probe _ key (T - 30) v 2 (by rw [hdigits]; exact hd9)
        (by rw [hstep]; norm_num) (by rw [hskew]; norm_num)
      have hoff : (Totp.options digits 1 30).verifyOffset (T - 30) = q - 2 := by
        rw [verifyOffset_eq_sub _ _ (by rw [hskew, hstep, hdiv2]; omega)
          (by rw [hstep, hdiv2]; omega) (by rw [hskew]; omega), hskew, hstep, hdiv2]
        omega
      rw [hoff]
      rw [rawGenerate_counter _ key _ T (by
        rw [stepTime_counter _ (q - 2) 2 (by rw [hstep]; norm_num) (by omega)
          (by rw [hstep]; omega), hstep, hTdiv]
        omega)]
      exact hraw
  · intro i hi
    have hoff : (Totp.options digits 1 30).verifyOffset (T + 61) = q + s - 1 := by
      rw [verifyOffset_eq_sub _ _ (by rw [hskew, hstep, hdiv3]; omega)
        (by rw [hstep, hdiv3]; omega) (by rw [hskew]; omega), hskew, hstep, hdiv3]
    rw [hoff]
    rw [stepTime_counter _ (q + s - 1) i (by rw [hstep]; norm_num) (by omega)
      (by rw [hstep]; omega), hTdiv]
    omega
  · intro i hi
    have hoff : (Totp.options digits 1 30).verifyOffset (T - 61) = q - 3 + s' - 1 := by
      rw [verifyOffset_eq_sub _ _ (by rw [hskew, hstep, hdiv4]; omega)
        (by rw [hstep, hdiv4]; omega) (by rw [hskew]; omega), hskew, hstep, hdiv4]
    rw [hoff]
    rw [stepTime_counter _ (q - 3 + s' - 1) i (by rw [hstep]; norm_num) (by omega)
      (by rw [hstep]; omega), hTdiv]
    omega

/-- C9 (confirmed): with the default configuration (6 digits, skew 1,
step 30), `generate(b"12345678901234567890", 59) = 287082` and
`verify(key, 59, 287082) = true`. -/
theorem nyx_c9 :
    generate? testKey 59 = some 287082 ∧ verify? testKey 59 287082 = some true :=
  ⟨by rfl, by rfl⟩

/-- C5 (corrected, amended): the code performs no validation.
`Totp::options` stores any parameters unchanged; with `step = 0`,
`generate` and `verify` panic on division by zero (modelled as `none`)
instead of returning a Configuration error; with `digits` outside
`[1, 9]` such as 10, `generate` silently wraps `10^digits` modulo `2^32`
(release profile) and returns a computed code instead of an Overflow
error. -/
theorem nyx_c5 :
    (∀ (c : Totp) (key : List Nat) (time token : Nat), c.step = 0 →
      c.generate? key time = none ∧ c.verify? key time token = none) ∧
    (Totp.options 10 1 30).generate? testKey 59 = some 1094287082 := by
  constructor
  · intro c key time token h
    constructor <;> simp [Totp.generate?, Totp.verify?, h]
  · rfl

/-- C5 counterexample: `Totp::options(10, 1, 30)` is accepted unchanged
(no rejection at construction), and `generate` under it returns the
computed code 1094287082 (= truncation mod `10^10 % 2^32`) rather than
surfacing a Configuration or Overflow error. -/
theorem nyx_c5_cex :
    Totp.options 10 1 30 = { digits := 10, skew := 1, step := 30 } ∧
    (Totp.options 10 1 30).generate? testKey 59 = some 1094287082 :=
  ⟨rfl, by rfl⟩

/-- C1 counterexample: with the valid parameters digits 6, step 30 (and
skew 128), `verify(key, 59, generate(key, 59))` returns `false`: the
`u8` loop bound `skew * 2 + 1` wraps to 1, so only counter
`⌊59/30⌋ - 128` (wrapped mod `2^64`) is probed. -/
theorem nyx_c1_cex :
    (Totp.options 6 128 30).generate? testKey 59 = some 287082 ∧
    (Totp.options 6 128 30).verify? testKey 59 287082 = some false :=
  ⟨by rfl, by rfl⟩

/-- C4 counterexample: at `time = 2^64 - 1` (skew 1, step 30) the claim's
window — counters `⌊time/30⌋ - 1`, `⌊time/30⌋`, `⌊time/30⌋ + 1` — does
not contain the code of counter 0, so by the claim `verify` must return
`false`; the source's probe `(offset + 2) * 30` wraps modulo `2^64` to
time 14, counter 0, and `verify` returns `true`. -/
theorem nyx_c4_cex :
    (Totp.options 6 1 30).generate? testKey 0 = some 755224 ∧
    specVerify (Totp.options 6 1 30) testKey (2 ^ 64 - 1) 755224 = false ∧
    (Totp.options 6 1 30).verify? testKey (2 ^ 64 - 1) 755224 = some true :=
  ⟨by rfl, by rfl, by rfl⟩

/-- C6 counterexample: the underflow is not clamped: at `time = 0` with
the default configuration the verifier wraps and probes far-future time
steps — it accepts the code generated for time `2^64 - 30` (counter
614891469123651719). -/
theorem nyx_c6_cex :
    generate? testKey (2 ^ 64 - 30) = some 856882 ∧
    verify? testKey 0 856882 = some true :=
  ⟨by rfl, by rfl⟩

/-- C7 counterexample: with skew 1, step 30 and a 1-digit configuration,
the code generated at `T = 30` also verifies at `T + 61 = 91`: the codes
of counters 1 and 2 collide (both are 2), so a code can verify one step
outside the claimed window. -/
theorem nyx_c7_cex :
    (Totp.options 1 1 30).generate? testKey 30 = some 2 ∧
    (Totp.options 1 1 30).verify? testKey 91 2 = some true :=
  ⟨by rfl, by rfl⟩

/-! ## Witnesses -/

theorem nyx_c1_witness :
    (Totp.options 8 1 30).verify? testKey 1111111109 7081804 = some true :=
  nyx_c1 (Totp.options 8 1 30) testKey 1111111109 7081804 (by decide) (by decide)
    (by decide) (by decide) (by decide) (by rfl)

theorem nyx_c2_witness :
    (Totp.options 8 1 30).generate? testKey 1234567890 = some 89005924 ∧
    89005924 < 10 ^ (Totp.options 8 1 30).digits :=
  ⟨by rfl, nyx_c2 (Totp.options 8 1 30) testKey 1234567890 89005924 (by decide) (by decide)
    (by decide) (by rfl)⟩

theorem nyx_c3_witness :
    Totp.new.generate? testKey 59 = some (specGenerate Totp.new testKey 59) :=
  nyx_c3 Totp.new testKey 59 (by decide) (by decide) (by decide)

theorem nyx_c4_witness :
    (Totp.options 6 2 30).verify? testKey 1000 123456 =
      some (specVerify (Totp.options 6 2 30) testKey 1000 123456) :=
  nyx_c4 (Totp.options 6 2 30) testKey 1000 123456 (by decide) (by decide) (by decide)
    (by decide) (by decide) (by decide)

theorem nyx_c5_witness :
    (Totp.options 6 1 0).generate? testKey 59 = none ∧
    (Totp.options 6 1 0).verify? testKey 59 287082 = none :=
  nyx_c5.1 (Totp.options 6 1 0) testKey 59 287082 rfl

theorem nyx_c6_witness :
    Totp.new.verifyOffset 0 = 0 / Totp.new.step + (2 ^ 64 - Totp.new.skew) ∧
      0 / Totp.new.step < Totp.new.verifyOffset 0 :=
  nyx_c6 Totp.new testKey 0 (by decide) (by decide) (by decide)

theorem nyx_c7_witness :
    (Totp.options 6 1 30).verify? testKey (121 + 30) 338314 = some true ∧
    (Totp.options 6 1 30).verify? testKey (121 - 30) 338314 = some true :=
  (nyx_c7 6 testKey 121 (by decide) (by decide) (by decide) (by decide)).1 338314 (by rfl)

theorem nyx_c10_witness :
    Totp.new.generate? testKey 59 = Totp.new.generate? testKey 31 :=
  nyx_c10 Totp.new testKey 59 31 (by decide) (by decide) (by decide) (by decide)

/-- The crate's own test (`tests::totp_8_digits`), reproduced in the
model: the RFC 6238 8-digit vectors all verify. This also validates the
modelled Signer (HMAC-SHA1) against independent test vectors. -/
theorem totp_8_digits :
    (Totp.options 8 1 30).verify? testKey 59 94287082 = some true ∧
    (Totp.options 8 1 30).verify? testKey 1111111109 7081804 = some true ∧
    (Totp.options 8 1 30).verify? testKey 1111111111 14050471 = some true ∧
    (Totp.options 8 1 30).verify? testKey 1234567890 89005924 = some true ∧
    (Totp.options 8 1 30).verify? testKey 2000000000 69279037 = some true ∧
    (Totp.options 8 1 30).verify? testKey 20000000000 65353130 = some true :=
  ⟨by rfl, by rfl, by rfl, by rfl, by rfl, by rfl⟩

end Nyx
